import Mathlib

/-!
Formal model of the OpenAssetIO host-facing `Manager` facade
(`src/openassetio-core/src/hostApi/Manager.cpp`).

The facade sits between a host application and a pluggable manager
implementation (`ManagerInterface`).  Its genuine logic is:

* mandatory-capability verification at initialization
  (`verifyRequiredCapabilities`);
* the entity-reference prefix fast path for `isEntityReferenceString`;
* batch-shape validation (parallel-sequence length equality, non-zero
  page size) performed before any plugin interaction;
* the call-shape adapters that derive throw-on-error and
  collect-as-variant conventions from the one callback-based batch
  primitive.

The plugin is modelled as a record of pure functions.  Each batch method
of the plugin is modelled by its callback schedule: the ordered list of
per-index callback invocations `(index, error-or-value)` the plugin
performs during the batch call.  The adapters fold over that schedule
exactly as the C++ aggregation closures execute: a success event writes
`result[index]`; in throw shapes an error event raises a
`BatchElementException` immediately (subsequent events never run, as the
C++ exception unwinds out of the plugin call).

Facade operations additionally return the list of plugin methods they
invoked, so that "the plugin is never called" claims are statable.
Logging (`debugApi` / `warning`) is not modelled: no claim depends on it.
-/

/-- Manager capabilities, from `ManagerInterface::Capability`.  Only the
capabilities referenced by `Manager.cpp` are modelled: the three
mandatory ones checked by `verifyRequiredCapabilities`, plus
`kStatefulContexts` used by `createContext`. -/
inductive Capability where
  | entityReferenceIdentification
  | managementPolicyQueries
  | entityTraitIntrospection
  | statefulContexts
deriving DecidableEq

/-- Modelled from the spec: the capability display names
(`ManagerInterface::kCapabilityNames`) are declared in a header that is
not part of the provided sources.  The spec only requires that each
capability has a fixed name used in the Configuration error message. -/
def kCapabilityNames : Capability → String
  | Capability.entityReferenceIdentification => "entityReferenceIdentification"
  | Capability.managementPolicyQueries => "managementPolicyQueries"
  | Capability.entityTraitIntrospection => "entityTraitIntrospection"
  | Capability.statefulContexts => "statefulContexts"

/-- Values of the plugin's info dictionary
(`InfoDictionary = unordered_map<Str, variant<Bool, Int64, Float, Str>>`).
Only string-typed-ness is ever inspected by `Manager.cpp`, so the
numeric payloads are not modelled. -/
inductive InfoValue where
  | boolVal : Bool → InfoValue
  | intVal : Int → InfoValue
  | floatVal : InfoValue
  | strVal : String → InfoValue
deriving DecidableEq

/-- An info dictionary: association list keyed by string (a map in C++,
so keys are unique; lookup returns the first match). -/
abbrev InfoDictionary := List (String × InfoValue)

/-- Modelled from the spec: `constants::kInfoKey_EntityReferencesMatchPrefix`
is declared in `constants.hpp`, which is not part of the provided
sources.  The spec calls it "a designated key" / "a well-known key"; the
exact literal is immaterial to every claim. -/
def kInfoKeyEntityReferencesMatchPrefixKey : String := "entityReferencesMatchPrefix"

/-- A validated wrapper around a string (`EntityReference`). -/
structure EntityReference where
  toStr : String
deriving DecidableEq

/-- Opaque trait data bundle (`trait::TraitsDataPtr`); treated as an
opaque payload by the facade, so modelled as an opaque handle.  The
default handle 0 models a default-constructed (null) `TraitsDataPtr`. -/
structure TraitsData where
  handle : Nat
deriving DecidableEq

instance : Inhabited TraitsData := ⟨⟨0⟩⟩

/-- A trait set (`trait::TraitSet`): a set of trait identifiers. -/
abbrev TraitSet := List String

/-- Opaque manager state handle (`managerApi::ManagerStateBasePtr`). -/
structure ManagerState where
  handle : Nat
deriving DecidableEq

/-- Per-call-sequence context (`Context`).  `Context::make()` leaves the
locale pointer null and the manager state absent, so both fields are
optional. -/
structure Context where
  locale : Option TraitsData
  managerState : Option ManagerState
deriving DecidableEq

/-- Mirror of `Context::make()`: fresh context, no locale, no state. -/
def Context.make : Context := ⟨none, none⟩

/-- Per-index business-level error (`errors::BatchElementError`): an
error code and a message.  The error-code enumeration is opaque here. -/
structure BatchElementError where
  code : Nat
  errorMessage : String
deriving DecidableEq

instance : Inhabited BatchElementError := ⟨⟨0, ""⟩⟩

/-- The exception thrown by throw-style shapes
(`errors::BatchElementException`): the failing index, the element error,
and the rendered what-message. -/
structure BatchElementException where
  index : Nat
  error : BatchElementError
  whatStr : String
deriving DecidableEq

/-- Access-mode tag.  The per-operation enums (`ResolveAccess`,
`PublishingAccess`, `RelationsAccess`, ...) are declared in headers not
part of the provided sources; `Manager.cpp` only ever casts them to the
common internal `access::Access` union, modelled here directly. -/
inductive Access where
  | read
  | managerDriven
  | write
  | createRelated
deriving DecidableEq

/-- Union of the exceptions `Manager.cpp` throws. -/
inductive CallException where
  | configuration : String → CallException
  | inputValidation : String → CallException
  | batchElement : BatchElementException → CallException
  | pluginRaised : String → CallException
deriving DecidableEq

/-- One per-index callback invocation performed by a plugin batch
method: the index, and the error (error callback) or value (success
callback) delivered for it. -/
abbrev BatchEvent (α : Type) := Nat × (BatchElementError ⊕ α)

/-- A record of one call made to a plugin (`ManagerInterface`) method.
Facade operations return the ordered list of such calls they perform,
so that claims of the form "the plugin method is never invoked" can be
stated. -/
inductive PluginCall where
  | isEntityReferenceStringCall : String → PluginCall
  | initializeCall : InfoDictionary → PluginCall
  | persistenceTokenForStateCall : ManagerState → PluginCall
  | stateFromPersistenceTokenCall : String → PluginCall
  | resolveCall : List EntityReference → PluginCall
  | preflightCall : List EntityReference → List TraitsData → PluginCall
  | registerCall : List EntityReference → List TraitsData → PluginCall
  | getWithRelationshipCall : List EntityReference → Nat → PluginCall
  | getWithRelationshipsCall : EntityReference → Nat → PluginCall
deriving DecidableEq

/-- Pure-function model of the plugin's current state and behaviour
(the `ManagerInterface` implementation).  Batch methods are modelled by
their callback schedules (see module comment). -/
structure PluginState where
  identifier : String
  displayName : String
  hasCapability : Capability → Bool
  infoDict : InfoDictionary
  isEntityReferenceStringImpl : String → Bool
  persistenceTokenForStateImpl : ManagerState → String
  stateFromPersistenceTokenImpl : String → ManagerState
  resolveImpl : List EntityReference → TraitSet → Access → Context → List (BatchEvent TraitsData)
  preflightImpl :
    List EntityReference → List TraitsData → Access → Context → List (BatchEvent EntityReference)
  registerImpl :
    List EntityReference → List TraitsData → Access → Context → List (BatchEvent EntityReference)

/-- The plugin handle held by the facade: its current state, plus its
`initialize` routine, which may fail (throw) or produce a new plugin
state (a proxy plugin may only know its true capability set and info
dictionary after configuration). -/
structure ManagerInterface where
  state : PluginState
  initImpl : PluginState → InfoDictionary → Except String PluginState

/-- The host-facing facade: the plugin handle plus the facade's one
piece of own state, the entity-reference prefix cache
(`entityReferencePrefix_`, a `std::optional<Str>`). -/
structure Manager where
  iface : ManagerInterface
  entityReferencePrefixCache : Option String

/-- Mirror of `Manager::make` / the constructor: the optional prefix
cache member starts unset. -/
def Manager.make (iface : ManagerInterface) : Manager := ⟨iface, none⟩

/-- The fixed ordered set of mandatory capabilities
(`kRequiredCapabilities` in `Manager.cpp`). -/
def kRequiredCapabilities : List Capability :=
  [Capability.entityReferenceIdentification, Capability.managementPolicyQueries,
   Capability.entityTraitIntrospection]

/-- Mirror of `verifyRequiredCapabilities`: collect the names of the
required capabilities the plugin does not report, in checked order; if
any are missing, fail with a `ConfigurationException` naming the
plugin's identifier and the comma-joined missing-capability names. -/
def verifyRequiredCapabilities (state : PluginState) : Except CallException Unit :=
  let missingCapabilities :=
    (kRequiredCapabilities.filter fun c => !(state.hasCapability c)).map kCapabilityNames
  if missingCapabilities.isEmpty then
    Except.ok ()
  else
    Except.error (CallException.configuration
      ("Manager implementation for '" ++ state.identifier ++
       "' does not support the required capabilities: " ++
       String.intercalate ", " missingCapabilities))

/-- Mirror of `entityReferencePrefixFromInfo`: if the info dictionary
holds the designated key with a string-typed value, that value is the
prefix; a value of any other type is ignored (with a logged warning,
not modelled); an absent key yields an unset optional. -/
def entityReferencePrefixFromInfo (info : InfoDictionary) : Option String :=
  match info.lookup kInfoKeyEntityReferencesMatchPrefixKey with
  | some (InfoValue.strVal p) => some p
  | some _ => none
  | none => none

/-- Mirror of `Manager::initialize`: run the plugin's own
initialization (which may throw), then verify mandatory capabilities
(which may throw a Configuration error), and only then overwrite the
prefix cache from the plugin's post-initialization info dictionary.
Returns the facade state after the call together with its outcome; on a
throw the facade state is whatever had been mutated so far (the plugin
handle on a capability failure, nothing on a plugin-init failure). -/
def Manager.initializeManager (m : Manager) (managerSettings : InfoDictionary) :
    Manager × Except CallException Unit :=
  match m.iface.initImpl m.iface.state managerSettings with
  | Except.error e => (m, Except.error (CallException.pluginRaised e))
  | Except.ok newState =>
    let m1 : Manager := { m with iface := { m.iface with state := newState } }
    match verifyRequiredCapabilities newState with
    | Except.error cfgErr => (m1, Except.error cfgErr)
    | Except.ok () =>
      ({ m1 with entityReferencePrefixCache := entityReferencePrefixFromInfo newState.infoDict },
       Except.ok ())

/-- Character-sequence prefix test modelling C++
`someString.rfind(p, 0) != Str::npos`, which holds exactly when
`someString` starts with `p`. -/
def strStartsWith (someString pfx : String) : Bool :=
  pfx.data.isPrefixOf someString.data

/-- Mirror of `Manager::isEntityReferenceString`: with no cached prefix,
delegate to the plugin's classification method; with a cached prefix,
pure prefix match, no plugin call. -/
def Manager.isEntityReferenceString (m : Manager) (someString : String) :
    Bool × List PluginCall :=
  match m.entityReferencePrefixCache with
  | none =>
    (m.iface.state.isEntityReferenceStringImpl someString,
     [PluginCall.isEntityReferenceStringCall someString])
  | some pfx => (strStartsWith someString pfx, [])

/-- Mirror of `kCreateEntityReferenceErrorMessage`. -/
def kCreateEntityReferenceErrorMessage : String := "Invalid entity reference: "

/-- Mirror of `Manager::createEntityReference`: throw an
`InputValidationException` carrying the offending string if
classification fails, else wrap the string. -/
def Manager.createEntityReference (m : Manager) (entityReferenceString : String) :
    Except CallException EntityReference × List PluginCall :=
  let cls := m.isEntityReferenceString entityReferenceString
  if !cls.1 then
    (Except.error (CallException.inputValidation
      (kCreateEntityReferenceErrorMessage ++ entityReferenceString)), cls.2)
  else
    (Except.ok ⟨entityReferenceString⟩, cls.2)

/-- Mirror of `Manager::createEntityReferenceIfValid`: same check, but
an absent result instead of a throw. -/
def Manager.createEntityReferenceIfValid (m : Manager) (entityReferenceString : String) :
    Option EntityReference × List PluginCall :=
  let cls := m.isEntityReferenceString entityReferenceString
  if !cls.1 then
    (none, cls.2)
  else
    (some ⟨entityReferenceString⟩, cls.2)

/-- Mirror of `Manager::persistenceTokenForContext`: no manager state
means an empty token with no plugin call; otherwise delegate
serialization to the plugin. -/
def Manager.persistenceTokenForContext (m : Manager) (context : Context) :
    String × List PluginCall :=
  match context.managerState with
  | some state =>
    (m.iface.state.persistenceTokenForStateImpl state,
     [PluginCall.persistenceTokenForStateCall state])
  | none => ("", [])

/-- Mirror of `Manager::contextFromPersistenceToken`: an empty token
yields a fresh context with no manager state and no plugin call; a
non-empty token asks the plugin to reconstruct the state. -/
def Manager.contextFromPersistenceToken (m : Manager) (token : String) :
    Context × List PluginCall :=
  if token = "" then
    (Context.make, [])
  else
    ({ Context.make with
        managerState := some (m.iface.state.stateFromPersistenceTokenImpl token) },
     [PluginCall.stateFromPersistenceTokenCall token])

/-- Modelled from the spec: display names for the access modes, used
only inside rendered exception messages (`access.hpp` is not part of
the provided sources). -/
def kAccessNames : Access → String
  | Access.read => "read"
  | Access.managerDriven => "managerDriven"
  | Access.write => "write"
  | Access.createRelated => "createRelated"

/-- Modelled from the spec: `errors::createBatchElementExceptionMessage`
lives in `src/openassetio-core/src/errors/exceptionMessages.hpp`, which
is not part of the provided sources.  The spec requires "a rendered
message naming the offending reference/entity and the access mode
used", so it is modelled as a rendering function of the element error,
the index, the entity reference and the access mode. -/
def createBatchElementExceptionMessage (error : BatchElementError) (index : Nat)
    (entityReference : EntityReference) (access : Access) : String :=
  error.errorMessage ++ " [index: " ++ toString index ++ "] [access: " ++
    kAccessNames access ++ "] [entity: " ++ entityReference.toStr ++ "]"

/-- Mirror of the callback batch shape of `Manager::resolve`: no
parameter-shape validation; delegate to the plugin's `resolve`, whose
callback schedule is returned alongside the recorded plugin call. -/
def Manager.resolveBatch (m : Manager) (entityReferences : List EntityReference)
    (traitSet : TraitSet) (resolveAccess : Access) (context : Context) :
    List (BatchEvent TraitsData) × List PluginCall :=
  (m.iface.state.resolveImpl entityReferences traitSet resolveAccess context,
   [PluginCall.resolveCall entityReferences])

/-- Mirror of the callback batch shape of `Manager::preflight`: the two
parallel sequences must have equal length, otherwise an
`InputValidationException` describing both lengths is thrown before any
plugin interaction. -/
def Manager.preflightBatch (m : Manager) (entityReferences : List EntityReference)
    (traitsHints : List TraitsData) (publishingAccess : Access) (context : Context) :
    Except CallException (List (BatchEvent EntityReference)) × List PluginCall :=
  if entityReferences.length ≠ traitsHints.length then
    (Except.error (CallException.inputValidation
      ("Parameter lists must be of the same length: " ++ toString entityReferences.length ++
       " entity references vs. " ++ toString traitsHints.length ++ " traits hints.")), [])
  else
    (Except.ok (m.iface.state.preflightImpl entityReferences traitsHints publishingAccess context),
     [PluginCall.preflightCall entityReferences traitsHints])

/-- Mirror of the callback batch shape of `Manager::register_`: same
length validation as preflight, with "traits datas" wording. -/
def Manager.registerBatch (m : Manager) (entityReferences : List EntityReference)
    (entityTraitsDatas : List TraitsData) (publishingAccess : Access) (context : Context) :
    Except CallException (List (BatchEvent EntityReference)) × List PluginCall :=
  if entityReferences.length ≠ entityTraitsDatas.length then
    (Except.error (CallException.inputValidation
      ("Parameter lists must be of the same length: " ++ toString entityReferences.length ++
       " entity references vs. " ++ toString entityTraitsDatas.length ++ " traits datas.")), [])
  else
    (Except.ok
      (m.iface.state.registerImpl entityReferences entityTraitsDatas publishingAccess context),
     [PluginCall.registerCall entityReferences entityTraitsDatas])

/-- Mirror of `Manager::getWithRelationship`: a zero page size is
rejected with an `InputValidationException` before the plugin is
called.  The pager-wrapping success callback is behaviour inside the
plugin call and is not needed by any claim, so only the validation and
the delegation (as a recorded plugin call) are modelled. -/
def Manager.getWithRelationship (m : Manager) (entityReferences : List EntityReference)
    (relationshipTraitsData : TraitsData) (pageSize : Nat) (relationsAccess : Access)
    (context : Context) : Except CallException Unit × List PluginCall :=
  if pageSize = 0 then
    (Except.error (CallException.inputValidation "pageSize must be greater than zero."), [])
  else
    (Except.ok (), [PluginCall.getWithRelationshipCall entityReferences pageSize])

/-- Mirror of `Manager::getWithRelationships` (one entity, many
relationship definitions): same zero-page-size validation. -/
def Manager.getWithRelationships (m : Manager) (entityReference : EntityReference)
    (relationshipTraitsDatas : List TraitsData) (pageSize : Nat) (relationsAccess : Access)
    (context : Context) : Except CallException Unit × List PluginCall :=
  if pageSize = 0 then
    (Except.error (CallException.inputValidation "pageSize must be greater than zero."), [])
  else
    (Except.ok (),
     [PluginCall.getWithRelationshipsCall entityReference pageSize])

/-- Aggregation closure of the plural throw-on-error shapes: fold the
plugin's callback schedule over the pre-sized result vector.  A success
event writes `result[index]`; an error event throws a
`BatchElementException` built from the index, the element error, and
the message rendered from `entityReferences[index]` and the access mode
("implemented as if FAILFAST is true"), so later events never run. -/
def multiExceptFold (entityReferences : List EntityReference) (access : Access) :
    List (BatchEvent α) → List α → Except CallException (List α)
  | [], acc => Except.ok acc
  | (index, Sum.inr value) :: rest, acc =>
    multiExceptFold entityReferences access rest (acc.set index value)
  | (index, Sum.inl error) :: _, _ =>
    Except.error (CallException.batchElement
      ⟨index, error,
       createBatchElementExceptionMessage error index
         (entityReferences.getD index ⟨""⟩) access⟩)

/-- Aggregation closure of the plural variant shapes: every event, be
it success or error, is written into the tagged-union slot of its
index; nothing throws. -/
def multiVariantFold :
    List (BatchEvent α) → List (BatchElementError ⊕ α) → List (BatchElementError ⊕ α)
  | [], acc => acc
  | (index, outcome) :: rest, acc => multiVariantFold rest (acc.set index outcome)

/-- Mirror of the multi-except shape of `Manager::resolve`: result
pre-sized to the input length with default-constructed (null)
`TraitsDataPtr` values, then the fail-fast aggregation fold. -/
def Manager.resolveMultiExcept (m : Manager) (entityReferences : List EntityReference)
    (traitSet : TraitSet) (resolveAccess : Access) (context : Context) :
    Except CallException (List TraitsData) :=
  multiExceptFold entityReferences resolveAccess
    (m.resolveBatch entityReferences traitSet resolveAccess context).1
    (List.replicate entityReferences.length default)

/-- Mirror of the multi-variant shape of `Manager::resolve`: result
pre-sized to the input length with default-constructed variants (whose
first alternative is `BatchElementError`), then the variant fold. -/
def Manager.resolveMultiVariant (m : Manager) (entityReferences : List EntityReference)
    (traitSet : TraitSet) (resolveAccess : Access) (context : Context) :
    List (BatchElementError ⊕ TraitsData) :=
  multiVariantFold
    (m.resolveBatch entityReferences traitSet resolveAccess context).1
    (List.replicate entityReferences.length (Sum.inl default))

/-- Mirror of the multi-except shape of `Manager::preflight`: the batch
shape's length validation applies, the result is pre-sized with
`EntityReference{""}`, and the fail-fast fold aggregates. -/
def Manager.preflightMultiExcept (m : Manager) (entityReferences : List EntityReference)
    (traitsHints : List TraitsData) (publishingAccess : Access) (context : Context) :
    Except CallException (List EntityReference) :=
  match (m.preflightBatch entityReferences traitsHints publishingAccess context).1 with
  | Except.error e => Except.error e
  | Except.ok events =>
    multiExceptFold entityReferences publishingAccess events
      (List.replicate entityReferences.length ⟨""⟩)

/-- Mirror of the multi-variant shape of `Manager::preflight`. -/
def Manager.preflightMultiVariant (m : Manager) (entityReferences : List EntityReference)
    (traitsHints : List TraitsData) (publishingAccess : Access) (context : Context) :
    Except CallException (List (BatchElementError ⊕ EntityReference)) :=
  match (m.preflightBatch entityReferences traitsHints publishingAccess context).1 with
  | Except.error e => Except.error e
  | Except.ok events =>
    Except.ok (multiVariantFold events
      (List.replicate entityReferences.length (Sum.inl default)))

/-- Mirror of the multi-except shape of `Manager::register_`. -/
def Manager.registerMultiExcept (m : Manager) (entityReferences : List EntityReference)
    (entityTraitsDatas : List TraitsData) (publishingAccess : Access) (context : Context) :
    Except CallException (List EntityReference) :=
  match (m.registerBatch entityReferences entityTraitsDatas publishingAccess context).1 with
  | Except.error e => Except.error e
  | Except.ok events =>
    multiExceptFold entityReferences publishingAccess events
      (List.replicate entityReferences.length ⟨""⟩)

/-- Mirror of the multi-variant shape of `Manager::register_`. -/
def Manager.registerMultiVariant (m : Manager) (entityReferences : List EntityReference)
    (entityTraitsDatas : List TraitsData) (publishingAccess : Access) (context : Context) :
    Except CallException (List (BatchElementError ⊕ EntityReference)) :=
  match (m.registerBatch entityReferences entityTraitsDatas publishingAccess context).1 with
  | Except.error e => Except.error e
  | Except.ok events =>
    Except.ok (multiVariantFold events
      (List.replicate entityReferences.length (Sum.inl default)))

/-- Concrete element error used by the witness scenarios. -/
def errFx : BatchElementError := ⟨3, "entity missing"⟩

/-- Concrete entity-reference inputs used by the witness scenarios. -/
def refsFx : List EntityReference := [⟨"ref:a"⟩, ⟨"ref:b"⟩]

/-- Concrete trait hints parallel to `refsFx`. -/
def hintsFx : List TraitsData := [⟨1⟩, ⟨2⟩]

/-- Concrete info dictionary advertising the prefix "ref:". -/
def infoFx : InfoDictionary :=
  [(kInfoKeyEntityReferencesMatchPrefixKey, InfoValue.strVal "ref:")]

/-- Concrete settings carrying a different prefix, "other:". -/
def settingsBFx : InfoDictionary :=
  [(kInfoKeyEntityReferencesMatchPrefixKey, InfoValue.strVal "other:")]

/-- Concrete plugin stub: reports every capability, and its batch
methods deliver a success callback for index 0 followed by an error
callback for index 1. -/
def pluginStateFx : PluginState :=
  { identifier := "org.example.manager"
    displayName := "Example Manager"
    hasCapability := fun _ => true
    infoDict := infoFx
    isEntityReferenceStringImpl := fun s => strStartsWith s "ref:"
    persistenceTokenForStateImpl := fun state => toString state.handle
    stateFromPersistenceTokenImpl := fun _ => ⟨7⟩
    resolveImpl := fun _ _ _ _ => [(0, Sum.inr ⟨10⟩), (1, Sum.inl errFx)]
    preflightImpl := fun _ _ _ _ => [(0, Sum.inr ⟨"ref:p0"⟩), (1, Sum.inl errFx)]
    registerImpl := fun _ _ _ _ => [(0, Sum.inr ⟨"ref:r0"⟩), (1, Sum.inl errFx)] }

/-- Concrete plugin stub whose reported capability set is missing
exactly `entityTraitIntrospection`. -/
def pluginStateMissingOneFx : PluginState :=
  { pluginStateFx with
      hasCapability := fun c => decide (c ≠ Capability.entityTraitIntrospection) }

/-- Concrete plugin handle: `initialize` succeeds and installs the
supplied settings as the plugin's new info dictionary (so different
settings yield different advertised prefixes). -/
def ifaceFx : ManagerInterface :=
  ⟨pluginStateFx, fun state settings => Except.ok { state with infoDict := settings }⟩

/-- Concrete plugin handle whose `initialize` itself throws. -/
def ifaceInitFailFx : ManagerInterface :=
  ⟨pluginStateFx, fun _ _ => Except.error "plugin exploded"⟩

/-- Concrete plugin handle whose post-initialization state is missing a
mandatory capability. -/
def ifaceMissingOneFx : ManagerInterface :=
  ⟨pluginStateMissingOneFx, fun state _ => Except.ok state⟩

/-- Facade over `ifaceFx` with no cached prefix. -/
def mgrFx : Manager := ⟨ifaceFx, none⟩

/-- Facade over `ifaceFx` with the prefix "ref:" cached. -/
def mgrCachedFx : Manager := ⟨ifaceFx, some "ref:"⟩

/-- Facade over `ifaceFx` with the empty prefix cached. -/
def mgrEmptyCachedFx : Manager := ⟨ifaceFx, some ""⟩

/-- Facade whose plugin init fails, with a previously cached prefix. -/
def mgrInitFailFx : Manager := ⟨ifaceInitFailFx, some "ref:"⟩

/-- Facade whose plugin verification will fail, with a previously
cached prefix. -/
def mgrMissingOneFx : Manager := ⟨ifaceMissingOneFx, some "ref:"⟩

/-- Context carrying concrete manager state. -/
def ctxStatefulFx : Context := ⟨none, some ⟨42⟩⟩

/-- Folding the variant aggregation closure never changes the length of
the pre-sized result vector. -/
theorem multiVariantFold_length (events : List (BatchEvent α)) :
    ∀ acc : List (BatchElementError ⊕ α), (multiVariantFold events acc).length = acc.length := by
  induction events with
  | nil => intro acc; rfl
  | cons ev rest ih =>
    intro acc
    obtain ⟨index, outcome⟩ := ev
    simp only [multiVariantFold]
    rw [ih, List.length_set]

/-- Indices no event touches keep their pre-sized slot. -/
theorem multiVariantFold_getElem_untouched (events : List (BatchEvent α)) :
    ∀ (acc : List (BatchElementError ⊕ α)) (i : Nat),
      (∀ ev ∈ events, ev.1 ≠ i) → (multiVariantFold events acc)[i]? = acc[i]? := by
  induction events with
  | nil => intro acc i _; rfl
  | cons ev rest ih =>
    intro acc i h
    obtain ⟨index, outcome⟩ := ev
    have hne : index ≠ i := h (index, outcome) (List.mem_cons_self _ _)
    simp only [multiVariantFold]
    rw [ih _ _ (fun e he => h e (List.mem_cons_of_mem _ he)), List.getElem?_set_ne hne]

/-- With pairwise-distinct event indices, the slot of index `i` ends up
holding exactly the outcome delivered for `i`. -/
theorem multiVariantFold_getElem_of_mem (events : List (BatchEvent α)) :
    ∀ (acc : List (BatchElementError ⊕ α)) (i : Nat) (o : BatchElementError ⊕ α),
      events.Pairwise (fun a b => a.1 ≠ b.1) → (i, o) ∈ events → i < acc.length →
      (multiVariantFold events acc)[i]? = some o := by
  induction events with
  | nil => intro acc i o _ hmem _; cases hmem
  | cons ev rest ih =>
    intro acc i o hpw hmem hlt
    obtain ⟨index, outcome⟩ := ev
    rw [List.pairwise_cons] at hpw
    simp only [multiVariantFold]
    rcases List.mem_cons.mp hmem with heq | hmem'
    · have h1 : index = i := (congrArg Prod.fst heq).symm
      have h2 : outcome = o := (congrArg Prod.snd heq).symm
      subst h1
      subst h2
      rw [multiVariantFold_getElem_untouched rest _ index
        (fun e he => (hpw.1 e he).symm)]
      exact List.getElem?_set_self hlt
    · exact ih (acc.set index outcome) i o hpw.2 hmem'
        (by rw [List.length_set]; exact hlt)

/-- When the fail-fast fold returns, the returned vector has the length
of the pre-sized accumulator. -/
theorem multiExceptFold_ok_length (refs : List EntityReference) (access : Access)
    (events : List (BatchEvent α)) :
    ∀ (acc out : List α), multiExceptFold refs access events acc = Except.ok out →
      out.length = acc.length := by
  induction events with
  | nil =>
    intro acc out h
    simp only [multiExceptFold] at h
    injection h with h2
    subst h2
    rfl
  | cons ev rest ih =>
    intro acc out h
    obtain ⟨index, outcome⟩ := ev
    cases outcome with
    | inl e => simp [multiExceptFold] at h
    | inr v =>
      simp only [multiExceptFold] at h
      have := ih _ _ h
      rw [this, List.length_set]

/-- When the first error event of the schedule is reached — however
many success events precede it — the fail-fast fold throws the
`BatchElementException` built from that event's index and error and the
message rendered from the entity reference at that index and the access
mode. -/
theorem multiExceptFold_error_of_reached (refs : List EntityReference) (access : Access)
    (pre : List (BatchEvent α)) :
    ∀ (acc : List α) (i : Nat) (e : BatchElementError) (rest : List (BatchEvent α)),
      (∀ ev ∈ pre, ev.2.isRight = true) →
      multiExceptFold refs access (pre ++ (i, Sum.inl e) :: rest) acc =
        Except.error (CallException.batchElement
          ⟨i, e, createBatchElementExceptionMessage e i (refs.getD i ⟨""⟩) access⟩) := by
  induction pre with
  | nil => intro acc i e rest _; rfl
  | cons ev pre' ih =>
    intro acc i e rest hsucc
    obtain ⟨index, outcome⟩ := ev
    cases outcome with
    | inl e' =>
      have := hsucc (index, Sum.inl e') (List.mem_cons_self _ _)
      simp at this
    | inr v =>
      simp only [List.cons_append, multiExceptFold]
      exact ih _ i e rest (fun ev' hev' => hsucc ev' (List.mem_cons_of_mem _ hev'))

/-- C2: if a prefix is cached, `isEntityReferenceString` is a pure
prefix match — true exactly when the string starts with the cached
prefix — with no call to the plugin's classification method; with no
cached prefix it returns exactly the plugin's classification result
(and performs exactly that one plugin call). -/
theorem claim_C2_reference_classification :
    ∀ (m : Manager) (s : String),
      (∀ p, m.entityReferencePrefixCache = some p →
        (((m.isEntityReferenceString s).1 = true) ↔ p.data <+: s.data) ∧
        (m.isEntityReferenceString s).2 = []) ∧
      (m.entityReferencePrefixCache = none →
        m.isEntityReferenceString s =
          (m.iface.state.isEntityReferenceStringImpl s,
           [PluginCall.isEntityReferenceStringCall s])) := by
  intro m s
  constructor
  · intro p hp
    constructor
    · simp [Manager.isEntityReferenceString, hp, strStartsWith, List.isPrefixOf_iff_prefix]
    · simp [Manager.isEntityReferenceString, hp]
  · intro hp
    simp [Manager.isEntityReferenceString, hp]

/-- Witness for C2 at concrete inputs: a facade with cached prefix
"ref:" classifies "ref:a" without a plugin call, and one with no cache
delegates to the plugin stub. -/
theorem claim_C2_witness :
    ((((mgrCachedFx.isEntityReferenceString "ref:a").1 = true) ↔
        "ref:".data <+: "ref:a".data) ∧
      (mgrCachedFx.isEntityReferenceString "ref:a").2 = []) ∧
    mgrFx.isEntityReferenceString "oth:x" =
      (pluginStateFx.isEntityReferenceStringImpl "oth:x",
       [PluginCall.isEntityReferenceStringCall "oth:x"]) :=
  ⟨(claim_C2_reference_classification mgrCachedFx "ref:a").1 "ref:" rfl,
   (claim_C2_reference_classification mgrFx "oth:x").2 rfl⟩

/-- C9: a cached empty prefix makes every candidate string — the empty
string included — classify as an entity reference, with no call to the
plugin's classification method. -/
theorem claim_C9_empty_prefix_matches_everything :
    ∀ (m : Manager) (s : String), m.entityReferencePrefixCache = some "" →
      m.isEntityReferenceString s = (true, []) := by
  intro m s h
  have hnil : ("" : String).data = [] := rfl
  simp [Manager.isEntityReferenceString, h, strStartsWith, hnil, List.isPrefixOf]

/-- Witness for C9 at concrete inputs: the empty-prefix facade accepts
an arbitrary string and the empty string. -/
theorem claim_C9_witness :
    mgrEmptyCachedFx.isEntityReferenceString "anything" = (true, []) ∧
    mgrEmptyCachedFx.isEntityReferenceString "" = (true, []) :=
  ⟨claim_C9_empty_prefix_matches_everything mgrEmptyCachedFx "anything" rfl,
   claim_C9_empty_prefix_matches_everything mgrEmptyCachedFx "" rfl⟩

/-- C6: `createEntityReference` throws an Input-Validation error
carrying the offending string exactly when classification is false and
otherwise wraps the string; `createEntityReferenceIfValid` is absent
exactly in the throwing case and present with the same wrapped string
otherwise. -/
theorem claim_C6_create_entity_reference :
    ∀ (m : Manager) (s : String),
      ((m.isEntityReferenceString s).1 = false →
        (m.createEntityReference s).1 =
          Except.error (CallException.inputValidation
            (kCreateEntityReferenceErrorMessage ++ s)) ∧
        (m.createEntityReferenceIfValid s).1 = none) ∧
      ((m.isEntityReferenceString s).1 = true →
        (m.createEntityReference s).1 = Except.ok ⟨s⟩ ∧
        (m.createEntityReferenceIfValid s).1 = some ⟨s⟩) ∧
      (((m.createEntityReferenceIfValid s).1.isSome = true) ↔
        (∃ r, (m.createEntityReference s).1 = Except.ok r)) ∧
      (∀ r, (m.createEntityReference s).1 = Except.ok r → r.toStr = s) ∧
      (∀ r, (m.createEntityReferenceIfValid s).1 = some r → r.toStr = s) := by
  intro m s
  cases h : (m.isEntityReferenceString s).1 <;>
    simp [Manager.createEntityReference, Manager.createEntityReferenceIfValid, h]

/-- Witness for C6 at concrete inputs: with the prefix "ref:" cached,
"oth:x" fails strict construction with the message carrying the string
and is absent from the probing variant; "ref:a" wraps on both paths. -/
theorem claim_C6_witness :
    ((mgrCachedFx.createEntityReference "oth:x").1 =
        Except.error (CallException.inputValidation
          (kCreateEntityReferenceErrorMessage ++ "oth:x")) ∧
      (mgrCachedFx.createEntityReferenceIfValid "oth:x").1 = none) ∧
    ((mgrCachedFx.createEntityReference "ref:a").1 = Except.ok ⟨"ref:a"⟩ ∧
      (mgrCachedFx.createEntityReferenceIfValid "ref:a").1 = some ⟨"ref:a"⟩) :=
  ⟨(claim_C6_create_entity_reference mgrCachedFx "oth:x").1 (by decide),
   (claim_C6_create_entity_reference mgrCachedFx "ref:a").2.1 (by decide)⟩

/-- C7: a context with no manager state serializes to the empty token
with no plugin call; deserializing the empty token yields a fresh
context with no manager state and no plugin call; a non-empty token
delegates state reconstruction to the plugin. -/
theorem claim_C7_persistence_fast_paths :
    ∀ (m : Manager) (context : Context) (token : String),
      (context.managerState = none → m.persistenceTokenForContext context = ("", [])) ∧
      (m.contextFromPersistenceToken "" = (Context.make, [])) ∧
      Context.make.managerState = none ∧
      (token ≠ "" →
        m.contextFromPersistenceToken token =
          ({ Context.make with
              managerState := some (m.iface.state.stateFromPersistenceTokenImpl token) },
           [PluginCall.stateFromPersistenceTokenCall token])) := by
  intro m context token
  refine ⟨fun h => ?_, rfl, rfl, fun h => ?_⟩
  · simp [Manager.persistenceTokenForContext, h]
  · simp [Manager.contextFromPersistenceToken, h]

/-- Witness for C7 at concrete inputs. -/
theorem claim_C7_witness :
    mgrFx.persistenceTokenForContext Context.make = ("", []) ∧
    mgrFx.contextFromPersistenceToken "" = (Context.make, []) ∧
    mgrFx.contextFromPersistenceToken "tok" =
      ({ Context.make with managerState := some ⟨7⟩ },
       [PluginCall.stateFromPersistenceTokenCall "tok"]) :=
  ⟨(claim_C7_persistence_fast_paths mgrFx Context.make "tok").1 rfl,
   (claim_C7_persistence_fast_paths mgrFx Context.make "tok").2.1,
   (claim_C7_persistence_fast_paths mgrFx Context.make "tok").2.2.2 (by decide)⟩

/-- Core of the plural-variant shapes: when the schedule delivers
exactly one callback per index (it is a permutation of one outcome per
index `0..n-1`), the fold fills slot `j` with outcome `j`. -/
theorem multiVariantFold_of_perm_range {α : Type} (events : List (BatchEvent α))
    (n : Nat) (o : Nat → BatchElementError ⊕ α) (acc : List (BatchElementError ⊕ α))
    (hacc : acc.length = n)
    (hperm : events.Perm ((List.range n).map fun j => (j, o j))) :
    (multiVariantFold events acc).length = n ∧
    ∀ j, j < n → (multiVariantFold events acc)[j]? = some (o j) := by
  have hpw_map : ((List.range n).map fun j => (j, o j)).Pairwise (fun a b => a.1 ≠ b.1) := by
    rw [List.pairwise_map]
    exact (List.pairwise_lt_range n).imp (fun h => Nat.ne_of_lt h)
  have hpw : events.Pairwise (fun a b => a.1 ≠ b.1) :=
    (List.Perm.pairwise_iff (fun h => Ne.symm h) hperm).mpr hpw_map
  constructor
  · rw [multiVariantFold_length, hacc]
  · intro j hj
    have hmem : (j, o j) ∈ events :=
      (List.Perm.mem_iff hperm).mpr (List.mem_map.mpr ⟨j, List.mem_range.mpr hj, rfl⟩)
    exact multiVariantFold_getElem_of_mem events acc j (o j) hpw hmem
      (by rw [hacc]; exact hj)

/-- C1: in the plural throw-on-error shapes of `resolve`, `preflight`
and `register_`, reaching the error callback for index `i` — however
many success callbacks have already run — throws the
`BatchElementException` carrying `i`, that index's error and the
message rendered from the entity reference at `i` and the access mode;
and whenever the call returns, the returned sequence has exactly the
input length it was pre-sized to. -/
theorem claim_C1_plural_throw_failfast :
    ∀ (m : Manager) (refs : List EntityReference) (traitSet : TraitSet)
      (hints datas : List TraitsData) (access : Access) (context : Context)
      (i : Nat) (e : BatchElementError),
      (∀ (pre rest : List (BatchEvent TraitsData)),
        m.iface.state.resolveImpl refs traitSet access context =
          pre ++ (i, Sum.inl e) :: rest →
        (∀ ev ∈ pre, ev.2.isRight = true) →
        m.resolveMultiExcept refs traitSet access context =
          Except.error (CallException.batchElement
            ⟨i, e, createBatchElementExceptionMessage e i (refs.getD i ⟨""⟩) access⟩)) ∧
      (∀ out, m.resolveMultiExcept refs traitSet access context = Except.ok out →
        out.length = refs.length) ∧
      (∀ (pre rest : List (BatchEvent EntityReference)),
        refs.length = hints.length →
        m.iface.state.preflightImpl refs hints access context =
          pre ++ (i, Sum.inl e) :: rest →
        (∀ ev ∈ pre, ev.2.isRight = true) →
        m.preflightMultiExcept refs hints access context =
          Except.error (CallException.batchElement
            ⟨i, e, createBatchElementExceptionMessage e i (refs.getD i ⟨""⟩) access⟩)) ∧
      (∀ out, m.preflightMultiExcept refs hints access context = Except.ok out →
        out.length = refs.length) ∧
      (∀ (pre rest : List (BatchEvent EntityReference)),
        refs.length = datas.length →
        m.iface.state.registerImpl refs datas access context =
          pre ++ (i, Sum.inl e) :: rest →
        (∀ ev ∈ pre, ev.2.isRight = true) →
        m.registerMultiExcept refs datas access context =
          Except.error (CallException.batchElement
            ⟨i, e, createBatchElementExceptionMessage e i (refs.getD i ⟨""⟩) access⟩)) ∧
      (∀ out, m.registerMultiExcept refs datas access context = Except.ok out →
        out.length = refs.length) := by
  intro m refs traitSet hints datas access context i e
  refine ⟨?_, ?_, ?_, ?_, ?_, ?_⟩
  · intro pre rest hsched hsucc
    unfold Manager.resolveMultiExcept Manager.resolveBatch
    rw [hsched]
    exact multiExceptFold_error_of_reached refs access pre _ i e rest hsucc
  · intro out hok
    unfold Manager.resolveMultiExcept Manager.resolveBatch at hok
    have h := multiExceptFold_ok_length _ _ _ _ _ hok
    simpa using h
  · intro pre rest hlen hsched hsucc
    have hcond : ¬ (refs.length ≠ hints.length) := by simp [hlen]
    simp only [Manager.preflightMultiExcept, Manager.preflightBatch, if_neg hcond]
    rw [hsched]
    exact multiExceptFold_error_of_reached refs access pre _ i e rest hsucc
  · intro out hok
    by_cases hlen : refs.length = hints.length
    · have hcond : ¬ (refs.length ≠ hints.length) := by simp [hlen]
      simp only [Manager.preflightMultiExcept, Manager.preflightBatch, if_neg hcond] at hok
      have h := multiExceptFold_ok_length _ _ _ _ _ hok
      simpa using h
    · simp only [Manager.preflightMultiExcept, Manager.preflightBatch, if_pos hlen] at hok
      exact Except.noConfusion hok
  · intro pre rest hlen hsched hsucc
    have hcond : ¬ (refs.length ≠ datas.length) := by simp [hlen]
    simp only [Manager.registerMultiExcept, Manager.registerBatch, if_neg hcond]
    rw [hsched]
    exact multiExceptFold_error_of_reached refs access pre _ i e rest hsucc
  · intro out hok
    by_cases hlen : refs.length = datas.length
    · have hcond : ¬ (refs.length ≠ datas.length) := by simp [hlen]
      simp only [Manager.registerMultiExcept, Manager.registerBatch, if_neg hcond] at hok
      have h := multiExceptFold_ok_length _ _ _ _ _ hok
      simpa using h
    · simp only [Manager.registerMultiExcept, Manager.registerBatch, if_pos hlen] at hok
      exact Except.noConfusion hok

/-- Witness for C1 at concrete inputs: the stub plugin reports success
for index 0 and then an error for index 1 over two references; every
plural throw shape raises index 1's exception, with the message
rendered from reference "ref:b" and the access mode. -/
theorem claim_C1_witness :
    mgrFx.resolveMultiExcept refsFx ["t"] Access.read Context.make =
      Except.error (CallException.batchElement
        ⟨1, errFx,
         createBatchElementExceptionMessage errFx 1 (refsFx.getD 1 ⟨""⟩) Access.read⟩) ∧
    mgrFx.preflightMultiExcept refsFx hintsFx Access.write Context.make =
      Except.error (CallException.batchElement
        ⟨1, errFx,
         createBatchElementExceptionMessage errFx 1 (refsFx.getD 1 ⟨""⟩) Access.write⟩) ∧
    mgrFx.registerMultiExcept refsFx hintsFx Access.write Context.make =
      Except.error (CallException.batchElement
        ⟨1, errFx,
         createBatchElementExceptionMessage errFx 1 (refsFx.getD 1 ⟨""⟩) Access.write⟩) :=
  ⟨(claim_C1_plural_throw_failfast mgrFx refsFx ["t"] hintsFx hintsFx Access.read
      Context.make 1 errFx).1 [(0, Sum.inr ⟨10⟩)] [] rfl
      (by intro ev hev; rw [List.mem_singleton] at hev; subst hev; rfl),
   (claim_C1_plural_throw_failfast mgrFx refsFx ["t"] hintsFx hintsFx Access.write
      Context.make 1 errFx).2.2.1 [(0, Sum.inr ⟨"ref:p0"⟩)] [] rfl rfl
      (by intro ev hev; rw [List.mem_singleton] at hev; subst hev; rfl),
   (claim_C1_plural_throw_failfast mgrFx refsFx ["t"] hintsFx hintsFx Access.write
      Context.make 1 errFx).2.2.2.2.1 [(0, Sum.inr ⟨"ref:r0"⟩)] [] rfl rfl
      (by intro ev hev; rw [List.mem_singleton] at hev; subst hev; rfl)⟩

/-- C5: in the plural variant shapes of `resolve`, `preflight` and
`register_`, a schedule that delivers exactly one callback per input
index never throws and yields one tagged union per index, slot `j`
holding exactly the value or error delivered for index `j`. -/
theorem claim_C5_plural_variant :
    ∀ (m : Manager) (refs : List EntityReference) (traitSet : TraitSet)
      (hints datas : List TraitsData) (access : Access) (context : Context),
      (∀ (o : Nat → BatchElementError ⊕ TraitsData),
        (m.iface.state.resolveImpl refs traitSet access context).Perm
          ((List.range refs.length).map fun j => (j, o j)) →
        (m.resolveMultiVariant refs traitSet access context).length = refs.length ∧
        ∀ j, j < refs.length →
          (m.resolveMultiVariant refs traitSet access context)[j]? = some (o j)) ∧
      (∀ (o : Nat → BatchElementError ⊕ EntityReference),
        refs.length = hints.length →
        (m.iface.state.preflightImpl refs hints access context).Perm
          ((List.range refs.length).map fun j => (j, o j)) →
        ∃ out, m.preflightMultiVariant refs hints access context = Except.ok out ∧
          out.length = refs.length ∧
          ∀ j, j < refs.length → out[j]? = some (o j)) ∧
      (∀ (o : Nat → BatchElementError ⊕ EntityReference),
        refs.length = datas.length →
        (m.iface.state.registerImpl refs datas access context).Perm
          ((List.range refs.length).map fun j => (j, o j)) →
        ∃ out, m.registerMultiVariant refs datas access context = Except.ok out ∧
          out.length = refs.length ∧
          ∀ j, j < refs.length → out[j]? = some (o j)) := by
  intro m refs traitSet hints datas access context
  refine ⟨?_, ?_, ?_⟩
  · intro o hperm
    unfold Manager.resolveMultiVariant Manager.resolveBatch
    exact multiVariantFold_of_perm_range _ refs.length o _
      (List.length_replicate _ _) hperm
  · intro o hlen hperm
    have hcond : ¬ (refs.length ≠ hints.length) := by simp [hlen]
    refine ⟨multiVariantFold (m.iface.state.preflightImpl refs hints access context)
      (List.replicate refs.length (Sum.inl default)), ?_, ?_⟩
    · simp only [Manager.preflightMultiVariant, Manager.preflightBatch, if_neg hcond]
    · exact multiVariantFold_of_perm_range _ refs.length o _
        (List.length_replicate _ _) hperm
  · intro o hlen hperm
    have hcond : ¬ (refs.length ≠ datas.length) := by simp [hlen]
    refine ⟨multiVariantFold (m.iface.state.registerImpl refs datas access context)
      (List.replicate refs.length (Sum.inl default)), ?_, ?_⟩
    · simp only [Manager.registerMultiVariant, Manager.registerBatch, if_neg hcond]
    · exact multiVariantFold_of_perm_range _ refs.length o _
        (List.length_replicate _ _) hperm

/-- Witness for C5 at concrete inputs: over two references the stub
delivers a success for index 0 and an error for index 1; the variant
shapes return a two-slot sequence with the success in slot 0 and the
error in slot 1, without throwing. -/
theorem claim_C5_witness :
    ((mgrFx.resolveMultiVariant refsFx ["t"] Access.read Context.make).length = 2 ∧
      (mgrFx.resolveMultiVariant refsFx ["t"] Access.read Context.make)[0]? =
        some (Sum.inr ⟨10⟩) ∧
      (mgrFx.resolveMultiVariant refsFx ["t"] Access.read Context.make)[1]? =
        some (Sum.inl errFx)) ∧
    (∃ out, mgrFx.registerMultiVariant refsFx hintsFx Access.write Context.make =
        Except.ok out ∧ out.length = 2 ∧
        out[0]? = some (Sum.inr ⟨"ref:r0"⟩) ∧ out[1]? = some (Sum.inl errFx)) := by
  have hres := (claim_C5_plural_variant mgrFx refsFx ["t"] hintsFx hintsFx Access.read
    Context.make).1 (fun j => if j = 0 then Sum.inr ⟨10⟩ else Sum.inl errFx) (by decide)
  have hreg := (claim_C5_plural_variant mgrFx refsFx ["t"] hintsFx hintsFx Access.write
    Context.make).2.2 (fun j => if j = 0 then Sum.inr ⟨"ref:r0"⟩ else Sum.inl errFx)
    rfl (by decide)
  refine ⟨⟨hres.1, hres.2 0 (by decide), hres.2 1 (by decide)⟩, ?_⟩
  obtain ⟨out, hout, hlen2, hslots⟩ := hreg
  exact ⟨out, hout, hlen2, hslots 0 (by decide), hslots 1 (by decide)⟩

/-- C3: mismatched parallel-sequence lengths make `preflight` and
`register_` fail synchronously with an Input-Validation error whose
message gives both observed lengths, and a zero page size makes the
relationship queries fail likewise; in each case the recorded plugin
trace is empty — the plugin's batch method is never invoked. -/
theorem claim_C3_shape_validation :
    ∀ (m : Manager) (refs : List EntityReference) (r : EntityReference)
      (hints datas relTraitsDatas : List TraitsData) (relTraitsData : TraitsData)
      (access : Access) (context : Context) (pageSize : Nat),
      (refs.length ≠ hints.length →
        m.preflightBatch refs hints access context =
          (Except.error (CallException.inputValidation
            ("Parameter lists must be of the same length: " ++ toString refs.length ++
             " entity references vs. " ++ toString hints.length ++ " traits hints.")), [])) ∧
      (refs.length ≠ datas.length →
        m.registerBatch refs datas access context =
          (Except.error (CallException.inputValidation
            ("Parameter lists must be of the same length: " ++ toString refs.length ++
             " entity references vs. " ++ toString datas.length ++ " traits datas.")), [])) ∧
      (pageSize = 0 →
        m.getWithRelationship refs relTraitsData pageSize access context =
          (Except.error
            (CallException.inputValidation "pageSize must be greater than zero."), [])) ∧
      (pageSize = 0 →
        m.getWithRelationships r relTraitsDatas pageSize access context =
          (Except.error
            (CallException.inputValidation "pageSize must be greater than zero."), [])) := by
  intro m refs r hints datas relTraitsDatas relTraitsData access context pageSize
  refine ⟨fun h => ?_, fun h => ?_, fun h => ?_, fun h => ?_⟩
  · simp [Manager.preflightBatch, h]
  · simp [Manager.registerBatch, h]
  · simp [Manager.getWithRelationship, h]
  · simp [Manager.getWithRelationships, h]

/-- Witness for C3 at concrete inputs: two references against one hint,
and page size zero. -/
theorem claim_C3_witness :
    mgrFx.preflightBatch refsFx [⟨1⟩] Access.write Context.make =
      (Except.error (CallException.inputValidation
        ("Parameter lists must be of the same length: " ++ toString 2 ++
         " entity references vs. " ++ toString 1 ++ " traits hints.")), []) ∧
    mgrFx.registerBatch refsFx [⟨1⟩] Access.write Context.make =
      (Except.error (CallException.inputValidation
        ("Parameter lists must be of the same length: " ++ toString 2 ++
         " entity references vs. " ++ toString 1 ++ " traits datas.")), []) ∧
    mgrFx.getWithRelationship refsFx ⟨1⟩ 0 Access.read Context.make =
      (Except.error
        (CallException.inputValidation "pageSize must be greater than zero."), []) ∧
    mgrFx.getWithRelationships ⟨"ref:a"⟩ [⟨1⟩] 0 Access.read Context.make =
      (Except.error
        (CallException.inputValidation "pageSize must be greater than zero."), []) :=
  ⟨(claim_C3_shape_validation mgrFx refsFx ⟨"ref:a"⟩ [⟨1⟩] [⟨1⟩] [⟨1⟩] ⟨1⟩ Access.write
      Context.make 0).1 (by decide),
   (claim_C3_shape_validation mgrFx refsFx ⟨"ref:a"⟩ [⟨1⟩] [⟨1⟩] [⟨1⟩] ⟨1⟩ Access.write
      Context.make 0).2.1 (by decide),
   (claim_C3_shape_validation mgrFx refsFx ⟨"ref:a"⟩ [⟨1⟩] [⟨1⟩] [⟨1⟩] ⟨1⟩ Access.read
      Context.make 0).2.2.1 rfl,
   (claim_C3_shape_validation mgrFx refsFx ⟨"ref:a"⟩ [⟨1⟩] [⟨1⟩] [⟨1⟩] ⟨1⟩ Access.read
      Context.make 0).2.2.2 rfl⟩

/-- C4: the missing set is exactly the mandatory capabilities the
plugin does not report, collected in the fixed checked order; when it
is empty verification passes, and when it is not, verification — and
`initialize`, which runs it after the plugin's own initialization —
throws a Configuration error whose message contains the plugin's
identifier and the comma-joined names of every missing capability. -/
theorem claim_C4_capability_gate :
    ∀ (state : PluginState),
      (∀ c, (c ∈ (kRequiredCapabilities.filter fun c => !(state.hasCapability c))) ↔
        (c ∈ kRequiredCapabilities ∧ state.hasCapability c = false)) ∧
      ((kRequiredCapabilities.filter fun c => !(state.hasCapability c)) = [] →
        verifyRequiredCapabilities state = Except.ok ()) ∧
      ((kRequiredCapabilities.filter fun c => !(state.hasCapability c)) ≠ [] →
        ∃ msg, verifyRequiredCapabilities state =
            Except.error (CallException.configuration msg) ∧
          (∃ p q, msg = p ++ state.identifier ++ q) ∧
          (∃ p q, msg = p ++ String.intercalate ", "
            ((kRequiredCapabilities.filter fun c => !(state.hasCapability c)).map
              kCapabilityNames) ++ q)) ∧
      (∀ (m : Manager) (settings : InfoDictionary),
        m.iface.initImpl m.iface.state settings = Except.ok state →
        (kRequiredCapabilities.filter fun c => !(state.hasCapability c)) ≠ [] →
        ∃ msg, verifyRequiredCapabilities state =
            Except.error (CallException.configuration msg) ∧
          (m.initializeManager settings).2 =
            Except.error (CallException.configuration msg)) := by
  intro state
  have h3 : (kRequiredCapabilities.filter fun c => !(state.hasCapability c)) ≠ [] →
      ∃ msg, verifyRequiredCapabilities state =
          Except.error (CallException.configuration msg) ∧
        (∃ p q, msg = p ++ state.identifier ++ q) ∧
        (∃ p q, msg = p ++ String.intercalate ", "
          ((kRequiredCapabilities.filter fun c => !(state.hasCapability c)).map
            kCapabilityNames) ++ q) := by
    intro hne
    have hmap : ((kRequiredCapabilities.filter fun c => !(state.hasCapability c)).map
        kCapabilityNames) ≠ [] := fun h => hne (List.map_eq_nil_iff.mp h)
    refine ⟨"Manager implementation for '" ++ state.identifier ++
      "' does not support the required capabilities: " ++
      String.intercalate ", " ((kRequiredCapabilities.filter fun c =>
        !(state.hasCapability c)).map kCapabilityNames), ?_, ?_, ?_⟩
    · simp [verifyRequiredCapabilities, List.isEmpty_iff, hmap]
    · exact ⟨"Manager implementation for '",
        "' does not support the required capabilities: " ++
          String.intercalate ", " ((kRequiredCapabilities.filter fun c =>
            !(state.hasCapability c)).map kCapabilityNames),
        String.append_assoc _ _ _⟩
    · exact ⟨"Manager implementation for '" ++ state.identifier ++
        "' does not support the required capabilities: ", "",
        (String.append_empty _).symm⟩
  refine ⟨?_, ?_, h3, ?_⟩
  · intro c
    simp [List.mem_filter]
  · intro h
    simp [verifyRequiredCapabilities, h]
  · intro m settings hinit hne
    obtain ⟨msg, hv, -, -⟩ := h3 hne
    exact ⟨msg, hv, by simp [Manager.initializeManager, hinit, hv]⟩

/-- Witness for C4 at concrete inputs: the all-capability stub passes
verification; the stub missing exactly `entityTraitIntrospection`
fails verification and fails `initialize` with the same Configuration
error. -/
theorem claim_C4_witness :
    verifyRequiredCapabilities pluginStateFx = Except.ok () ∧
    (∃ msg, verifyRequiredCapabilities pluginStateMissingOneFx =
        Except.error (CallException.configuration msg) ∧
      (∃ p q, msg = p ++ pluginStateMissingOneFx.identifier ++ q) ∧
      (∃ p q, msg = p ++ String.intercalate ", "
        ((kRequiredCapabilities.filter fun c =>
          !(pluginStateMissingOneFx.hasCapability c)).map kCapabilityNames) ++ q)) ∧
    (∃ msg, verifyRequiredCapabilities pluginStateMissingOneFx =
        Except.error (CallException.configuration msg) ∧
      (mgrMissingOneFx.initializeManager infoFx).2 =
        Except.error (CallException.configuration msg)) :=
  ⟨(claim_C4_capability_gate pluginStateFx).2.1 (by decide),
   (claim_C4_capability_gate pluginStateMissingOneFx).2.2.1 (by decide),
   (claim_C4_capability_gate pluginStateMissingOneFx).2.2.2 mgrMissingOneFx infoFx rfl
     (by decide)⟩

/-- C8 (amended): the prefix cache is written only by `initialize` — a
fresh facade has it unset, and a failed `initialize` leaves it exactly
as before — but every successful `initialize` recomputes it from the
plugin's post-initialization info dictionary, so a subsequent
successful `initialize` may change an already-set value. -/
theorem claim_C8_prefix_cache_lifecycle :
    ∀ (m : Manager) (settings : InfoDictionary),
      (Manager.make m.iface).entityReferencePrefixCache = none ∧
      (∀ e, (m.initializeManager settings).2 = Except.error e →
        (m.initializeManager settings).1.entityReferencePrefixCache =
          m.entityReferencePrefixCache) ∧
      ((m.initializeManager settings).2 = Except.ok () →
        (m.initializeManager settings).1.entityReferencePrefixCache =
          entityReferencePrefixFromInfo
            (m.initializeManager settings).1.iface.state.infoDict) := by
  intro m settings
  refine ⟨rfl, ?_, ?_⟩
  · intro e he
    cases hinit : m.iface.initImpl m.iface.state settings with
    | error err => simp [Manager.initializeManager, hinit]
    | ok newState =>
      cases hver : verifyRequiredCapabilities newState with
      | error cfg => simp [Manager.initializeManager, hinit, hver]
      | ok u =>
        cases u
        simp [Manager.initializeManager, hinit, hver] at he
  · intro hok
    cases hinit : m.iface.initImpl m.iface.state settings with
    | error err => simp [Manager.initializeManager, hinit] at hok
    | ok newState =>
      cases hver : verifyRequiredCapabilities newState with
      | error cfg => simp [Manager.initializeManager, hinit, hver] at hok
      | ok u =>
        cases u
        simp [Manager.initializeManager, hinit, hver]

/-- Counterexample to C8 as stated: on a fresh facade, a first
successful `initialize` caches the prefix "ref:"; a second successful
`initialize` (with settings the plugin installs as its new info
dictionary) recomputes the cache to "other:" — the cache is changed by
a later operation, namely a subsequent call to `initialize`. -/
theorem claim_C8_counterexample :
    ((Manager.make ifaceFx).initializeManager infoFx).1.entityReferencePrefixCache =
        some "ref:" ∧
    ((((Manager.make ifaceFx).initializeManager infoFx).1.initializeManager
        settingsBFx).2 = Except.ok ()) ∧
    ((((Manager.make ifaceFx).initializeManager infoFx).1.initializeManager
        settingsBFx).1.entityReferencePrefixCache = some "other:") ∧
    ((((Manager.make ifaceFx).initializeManager infoFx).1.initializeManager
        settingsBFx).1.entityReferencePrefixCache ≠
      ((Manager.make ifaceFx).initializeManager infoFx).1.entityReferencePrefixCache) :=
  ⟨rfl, rfl, rfl, by decide⟩

/-- Witness for C8 (amended) at concrete inputs: a failed plugin
initialization leaves the previously cached "ref:" in place, and a
successful one recomputes the cache from the new info dictionary. -/
theorem claim_C8_witness :
    (mgrInitFailFx.initializeManager infoFx).1.entityReferencePrefixCache = some "ref:" ∧
    (mgrFx.initializeManager settingsBFx).1.entityReferencePrefixCache =
      entityReferencePrefixFromInfo
        (mgrFx.initializeManager settingsBFx).1.iface.state.infoDict :=
  ⟨(claim_C8_prefix_cache_lifecycle mgrInitFailFx infoFx).2.1
      (CallException.pluginRaised "plugin exploded") rfl,
   (claim_C8_prefix_cache_lifecycle mgrFx settingsBFx).2.2 rfl⟩

/-- C10: `initialize` updates the prefix cache only after both the
plugin's own initialization and the capability verification complete
without throwing; if the plugin's initialization throws the facade is
untouched, if verification throws the cache keeps its previous value,
and a successful outcome implies both stages passed. -/
theorem claim_C10_prefix_cache_after_gates :
    ∀ (m : Manager) (settings : InfoDictionary),
      (∀ errStr, m.iface.initImpl m.iface.state settings = Except.error errStr →
        m.initializeManager settings =
          (m, Except.error (CallException.pluginRaised errStr))) ∧
      (∀ newState cfgErr, m.iface.initImpl m.iface.state settings = Except.ok newState →
        verifyRequiredCapabilities newState = Except.error cfgErr →
        (m.initializeManager settings).1.entityReferencePrefixCache =
          m.entityReferencePrefixCache ∧
        (m.initializeManager settings).2 = Except.error cfgErr) ∧
      ((m.initializeManager settings).2 = Except.ok () →
        ∃ newState, m.iface.initImpl m.iface.state settings = Except.ok newState ∧
          verifyRequiredCapabilities newState = Except.ok () ∧
          (m.initializeManager settings).1.entityReferencePrefixCache =
            entityReferencePrefixFromInfo newState.infoDict) := by
  intro m settings
  refine ⟨?_, ?_, ?_⟩
  · intro errStr hinit
    simp [Manager.initializeManager, hinit]
  · intro newState cfgErr hinit hver
    constructor <;> simp [Manager.initializeManager, hinit, hver]
  · intro hok
    cases hinit : m.iface.initImpl m.iface.state settings with
    | error err => simp [Manager.initializeManager, hinit] at hok
    | ok newState =>
      cases hver : verifyRequiredCapabilities newState with
      | error cfg => simp [Manager.initializeManager, hinit, hver] at hok
      | ok u =>
        cases u
        exact ⟨newState, rfl, hver, by simp [Manager.initializeManager, hinit, hver]⟩

/-- Witness for C10 at concrete inputs: a throwing plugin init leaves
the facade untouched; a missing capability fails verification and
leaves the cached "ref:" in place; a fully successful init passed both
stages. -/
theorem claim_C10_witness :
    mgrInitFailFx.initializeManager infoFx =
      (mgrInitFailFx, Except.error (CallException.pluginRaised "plugin exploded")) ∧
    ((mgrMissingOneFx.initializeManager infoFx).1.entityReferencePrefixCache =
        some "ref:" ∧
      (mgrMissingOneFx.initializeManager infoFx).2 =
        Except.error (CallException.configuration
          ("Manager implementation for 'org.example.manager' does not support the" ++
           " required capabilities: entityTraitIntrospection"))) ∧
    (∃ newState, mgrFx.iface.initImpl mgrFx.iface.state settingsBFx =
        Except.ok newState ∧
      verifyRequiredCapabilities newState = Except.ok () ∧
      (mgrFx.initializeManager settingsBFx).1.entityReferencePrefixCache =
        entityReferencePrefixFromInfo newState.infoDict) :=
  ⟨(claim_C10_prefix_cache_after_gates mgrInitFailFx infoFx).1 "plugin exploded" rfl,
   (claim_C10_prefix_cache_after_gates mgrMissingOneFx infoFx).2.1
     pluginStateMissingOneFx
     (CallException.configuration
       ("Manager implementation for 'org.example.manager' does not support the" ++
        " required capabilities: entityTraitIntrospection"))
     rfl rfl,
   (claim_C10_prefix_cache_after_gates mgrFx settingsBFx).2.2 rfl⟩
